import Mathlib

/-!
# Verification of the 3D Game of Life core (`Game_of_life3d.py`)

Shallow embedding of the simulation core of the repository
`conways_game_of_life3D`: the grid representation, the neighbor-counting
routine `n_surrounding_cells`, the generation transition `step`, the history
buffer `prev_generations`, and the color-map derivation of `simulate`.

Modelling conventions:
* a NumPy 3D boolean array is a `Grid`: three dimensions plus a total
  function `cells`; only values at in-range coordinates are meaningful
  (matching a dense array, which has exactly one value per in-range index);
* NumPy basic slicing `grid[lo:hi, ...]` with already-clipped bounds sums
  over the index box `[lo, hi) × ...`, rendered with `Finset.Ico`;
* NumPy scalar indexing `grid[z, y, x]` accepts any index in
  `[-dim, dim)` per axis (negative indices wrap); an index outside that
  range raises `IndexError`, rendered as `Option.none`;
* `time.monotonic` bookkeeping (`calculation_time`) is wall-clock only and
  is used in no simulation decision; it is not modelled;
* the matplotlib/tkinter surfaces (`make_ax`, `display`, `InputWindow`) are
  out of scope; of `simulate` we model the color-map accumulation loop,
  where writing `color_map[z, y, x]` at an index outside the allocated
  `10 × 10 × 10 × 3` array raises `IndexError`, rendered as `Option.none`.
-/

/-- A dense 3D boolean array: the `grid` attribute of `GameOfLife`.
`depth`, `height`, `width` mirror `grid.shape`; `cells z y x` is the value
at in-range coordinate `(z, y, x)` (values outside the range are junk and
are never read by the modelled code). -/
structure Grid where
  depth : Nat
  height : Nat
  width : Nat
  cells : Nat → Nat → Nat → Bool

/-- `np.clip(c - 1, a_min := 0, a_max := dim)`, the lower slice bound of
`n_surrounding_cells`, as a natural index. -/
def sliceLo (dim : Nat) (c : Int) : Nat := (max 0 (min (c - 1) (dim : Int))).toNat

/-- `np.clip(c + 2, a_min := 0, a_max := dim)`, the upper slice bound of
`n_surrounding_cells`, as a natural index. -/
def sliceHi (dim : Nat) (c : Int) : Nat := (max 0 (min (c + 2) (dim : Int))).toNat

/-- `np.sum(grid[z_bounds[0]:z_bounds[1], y_bounds[0]:y_bounds[1],
x_bounds[0]:x_bounds[1]])` from `n_surrounding_cells`: the number of alive
cells in the clipped index box. -/
def sliceSum (g : Grid) (z y x : Int) : Nat :=
  Finset.sum (Finset.Ico (sliceLo g.depth z) (sliceHi g.depth z)) fun zi =>
    Finset.sum (Finset.Ico (sliceLo g.height y) (sliceHi g.height y)) fun yi =>
      Finset.sum (Finset.Ico (sliceLo g.width x) (sliceHi g.width x)) fun xi =>
        if g.cells zi yi xi then 1 else 0

/-- NumPy scalar indexing on one axis: an index `i` with `0 ≤ i < dim` is
used as is, an index with `-dim ≤ i < 0` wraps to `i + dim`, anything else
raises `IndexError` (`none`). -/
def npIndex (dim : Nat) (i : Int) : Option Nat :=
  if 0 ≤ i ∧ i < (dim : Int) then some i.toNat
  else if -(dim : Int) ≤ i ∧ i < 0 then some (i + dim).toNat
  else none

/-- `GameOfLife.n_surrounding_cells(self, z, y, x)`: sums the clipped
3×3×3 slice, then subtracts 1 when the cell itself (read with NumPy scalar
indexing, which wraps negative indices) is alive.  `none` models the
`IndexError` raised by the scalar read `self.grid[z, y, x]`. -/
def n_surrounding_cells (g : Grid) (z y x : Int) : Option Int :=
  match npIndex g.depth z, npIndex g.height y, npIndex g.width x with
  | some zi, some yi, some xi =>
      some ((sliceSum g z y x : Int) - (if g.cells zi yi xi then 1 else 0))
  | _, _, _ => none

/-- `GameOfLife.step`, restricted to the grid transition: a fresh
`np.zeros(self.grid.shape, dtype='bool')` buffer is filled by iterating
`np.ndindex(self.grid.shape)`; an alive cell stays alive iff its
`n_surrounding_cells` equals 9, a dead cell becomes alive iff it equals 4,
every other cell is dead (the zero of the fresh buffer). -/
def Grid.step (g : Grid) : Grid :=
  { depth := g.depth, height := g.height, width := g.width,
    cells := fun z y x =>
      if z < g.depth ∧ y < g.height ∧ x < g.width then
        match n_surrounding_cells g (z : Int) (y : Int) (x : Int) with
        | some n => if g.cells z y x then n == 9 else n == 4
        | none => false
      else false }

/-- The `GameOfLife` object state that the claims mention: the current
grid and the `prev_generations` history list (`calculation_time` is
wall-clock bookkeeping and is not modelled). -/
structure GameOfLife where
  grid : Grid
  prev_generations : List Grid

/-- `GameOfLife.__init__(self, grid)`: stores the grid unchanged and starts
with an empty history.  The source performs no validation of any kind. -/
def GameOfLife.init (grid : Grid) : GameOfLife :=
  { grid := grid, prev_generations := [] }

/-- `GameOfLife.step(self)`: replaces the grid by the next generation and
appends that same next generation to `prev_generations`. -/
def GameOfLife.step (gol : GameOfLife) : GameOfLife :=
  { grid := gol.grid.step, prev_generations := gol.prev_generations ++ [gol.grid.step] }

/-- The 26 offsets of the 3×3×3 block centered at a cell, minus the center
itself.  Specification-side vocabulary used to state what
`n_surrounding_cells` computes. -/
def nbrOffsets : Finset (Int × Int × Int) :=
  ((Finset.Icc (-1 : Int) 1) ×ˢ (Finset.Icc (-1 : Int) 1) ×ˢ (Finset.Icc (-1 : Int) 1)).erase
    (0, 0, 0)

/-- Specification-side neighbor count, written from the spec's words: the
number of alive cells within the 3×3×3 block centered on `(z, y, x)`,
excluding the cell itself, with the block clipped to the lattice bounds
(offsets falling outside the lattice are never counted). -/
def neighborCountSpec (g : Grid) (z y x : Nat) : Nat :=
  Finset.sum nbrOffsets fun d =>
    if 0 ≤ (z : Int) + d.1 ∧ (z : Int) + d.1 < (g.depth : Int) ∧
       0 ≤ (y : Int) + d.2.1 ∧ (y : Int) + d.2.1 < (g.height : Int) ∧
       0 ≤ (x : Int) + d.2.2 ∧ (x : Int) + d.2.2 < (g.width : Int) ∧
       g.cells ((z : Int) + d.1).toNat ((y : Int) + d.2.1).toNat ((x : Int) + d.2.2).toNat
    then 1 else 0

/-- Specification-side constructor, written from the spec's words: fail
with `InvalidDimensionError` if any dimension is zero (a `Nat` dimension
cannot be negative), succeed otherwise.  It exists only to be compared
against the source constructor `GameOfLife.init`, which never fails. -/
def initSpec (g : Grid) : Except String GameOfLife :=
  if 0 < g.depth ∧ 0 < g.height ∧ 0 < g.width then Except.ok (GameOfLife.init g)
  else Except.error "InvalidDimensionError"

/-- Two grids represent the same NumPy array: same shape and the same
boolean at every in-range coordinate (out-of-range values of the `cells`
function are representation junk). -/
def Grid.EquivOn (g1 g2 : Grid) : Prop :=
  g1.depth = g2.depth ∧ g1.height = g2.height ∧ g1.width = g2.width ∧
    ∀ z, z < g1.depth → ∀ y, y < g1.height → ∀ x, x < g1.width →
      g1.cells z y x = g2.cells z y x

instance (g1 g2 : Grid) : Decidable (Grid.EquivOn g1 g2) := by
  unfold Grid.EquivOn; exact inferInstance

/-! ## Bridging `n_surrounding_cells` to the specification-side count -/

lemma sliceLo_nat (dim c : Nat) (hc : c < dim) : sliceLo dim (c : Int) = c - 1 := by
  unfold sliceLo; omega

lemma sliceHi_nat (dim c : Nat) (hc : c < dim) : sliceHi dim (c : Int) = min (c + 2) dim := by
  unfold sliceHi; omega

/-- On one axis, the clipped slice `[clip(c-1), clip(c+2))` of an in-range
center `c` visits exactly the in-range points among `c-1`, `c`, `c+1`. -/
lemma axis_sum (dim c : Nat) (hc : c < dim) (f : Nat → Nat) :
    Finset.sum (Finset.Ico (sliceLo dim (c : Int)) (sliceHi dim (c : Int))) f
    = Finset.sum (Finset.Icc (-1 : Int) 1) fun d =>
        if 0 ≤ (c : Int) + d ∧ (c : Int) + d < (dim : Int) then f ((c : Int) + d).toNat else 0 := by
  rw [show Finset.Icc (-1 : Int) 1 = {-1, 0, 1} from by decide]
  rw [Finset.sum_insert (by decide), Finset.sum_insert (by decide), Finset.sum_singleton]
  rw [sliceLo_nat dim c hc, sliceHi_nat dim c hc]
  rcases Nat.eq_zero_or_pos c with rfl | hpos
  · -- c = 0 : lower bound 0, the d = -1 term vanishes
    rw [if_neg (by omega :
      ¬ (0 ≤ ((0 : Nat) : Int) + (-1) ∧ ((0 : Nat) : Int) + (-1) < (dim : Int)))]
    have h0 : (((0 : Nat) : Int) + 0).toNat = 0 := by omega
    have h1 : (((0 : Nat) : Int) + 1).toNat = 1 := by omega
    rcases Nat.lt_or_ge 1 dim with hd | hd
    · have e : Finset.Ico (0 - 1 : Nat) (min (0 + 2) dim) = {0, 1} := by
        ext i; simp only [Finset.mem_Ico, Finset.mem_insert, Finset.mem_singleton]; omega
      rw [e, Finset.sum_insert (by simp only [Finset.mem_singleton]; omega),
        Finset.sum_singleton]
      rw [if_pos (by omega), if_pos (by omega), h0, h1]
      omega
    · have hdim : dim = 1 := by omega
      subst hdim
      have e : Finset.Ico (0 - 1 : Nat) (min (0 + 2) 1) = {0} := by decide
      rw [e, Finset.sum_singleton]
      rw [if_pos (by omega), if_neg (by omega), h0]
      omega
  · -- c ≥ 1
    obtain ⟨k, rfl⟩ : ∃ k, c = k + 1 := ⟨c - 1, by omega⟩
    have hm1 : (((k + 1 : Nat) : Int) + (-1)).toNat = k := by omega
    have hm2 : (((k + 1 : Nat) : Int) + 0).toNat = k + 1 := by omega
    have hm3 : (((k + 1 : Nat) : Int) + 1).toNat = k + 2 := by omega
    rw [if_pos (by omega), if_pos (by omega), hm1, hm2]
    rcases Nat.lt_or_ge (k + 2) dim with hd | hd
    · -- interior on the right
      have e : Finset.Ico (k + 1 - 1) (min (k + 1 + 2) dim) = {k, k + 1, k + 2} := by
        ext i; simp only [Finset.mem_Ico, Finset.mem_insert, Finset.mem_singleton]; omega
      rw [e, Finset.sum_insert (by simp only [Finset.mem_insert, Finset.mem_singleton]; omega),
        Finset.sum_insert (by simp only [Finset.mem_singleton]; omega), Finset.sum_singleton]
      rw [if_pos (by omega), hm3]
    · -- right boundary
      have hdim : dim = k + 2 := by omega
      subst hdim
      have e : Finset.Ico (k + 1 - 1) (min (k + 1 + 2) (k + 2)) = {k, k + 1} := by
        ext i; simp only [Finset.mem_Ico, Finset.mem_insert, Finset.mem_singleton]; omega
      rw [e, Finset.sum_insert (by simp only [Finset.mem_singleton]; omega), Finset.sum_singleton]
      rw [if_neg (by omega)]
      omega

/-- The clipped 3×3×3 block sum written over offsets, center included.
Intermediate form between `sliceSum` and `neighborCountSpec`. -/
def boxSum (g : Grid) (z y x : Nat) : Nat :=
  Finset.sum (Finset.Icc (-1 : Int) 1) fun dz =>
    Finset.sum (Finset.Icc (-1 : Int) 1) fun dy =>
      Finset.sum (Finset.Icc (-1 : Int) 1) fun dx =>
        if 0 ≤ (z : Int) + dz ∧ (z : Int) + dz < (g.depth : Int) ∧
           0 ≤ (y : Int) + dy ∧ (y : Int) + dy < (g.height : Int) ∧
           0 ≤ (x : Int) + dx ∧ (x : Int) + dx < (g.width : Int) ∧
           g.cells ((z : Int) + dz).toNat ((y : Int) + dy).toNat ((x : Int) + dx).toNat
        then 1 else 0

lemma sliceSum_eq_boxSum (g : Grid) (z y x : Nat)
    (hz : z < g.depth) (hy : y < g.height) (hx : x < g.width) :
    sliceSum g (z : Int) (y : Int) (x : Int) = boxSum g z y x := by
  unfold sliceSum boxSum
  rw [axis_sum g.depth z hz]
  refine Finset.sum_congr rfl fun dz _ => ?_
  by_cases cz : 0 ≤ (z : Int) + dz ∧ (z : Int) + dz < (g.depth : Int)
  · rw [if_pos cz, axis_sum g.height y hy]
    refine Finset.sum_congr rfl fun dy _ => ?_
    by_cases cy : 0 ≤ (y : Int) + dy ∧ (y : Int) + dy < (g.height : Int)
    · rw [if_pos cy, axis_sum g.width x hx]
      refine Finset.sum_congr rfl fun dx _ => ?_
      by_cases cx : 0 ≤ (x : Int) + dx ∧ (x : Int) + dx < (g.width : Int)
      · rw [if_pos cx]
        by_cases cc :
            g.cells ((z : Int) + dz).toNat ((y : Int) + dy).toNat ((x : Int) + dx).toNat
        · rw [if_pos cc, if_pos ⟨cz.1, cz.2, cy.1, cy.2, cx.1, cx.2, cc⟩]
        · rw [if_neg cc, if_neg (by tauto)]
      · rw [if_neg cx, if_neg (by tauto)]
    · rw [if_neg cy]
      symm
      exact Finset.sum_eq_zero fun dx _ => if_neg (by tauto)
  · rw [if_neg cz]
    symm
    exact Finset.sum_eq_zero fun dy _ => Finset.sum_eq_zero fun dx _ => if_neg (by tauto)

lemma boxSum_eq_spec_add_self (g : Grid) (z y x : Nat)
    (hz : z < g.depth) (hy : y < g.height) (hx : x < g.width) :
    boxSum g z y x = neighborCountSpec g z y x + (if g.cells z y x then 1 else 0) := by
  have hprod : boxSum g z y x =
      Finset.sum ((Finset.Icc (-1 : Int) 1) ×ˢ (Finset.Icc (-1 : Int) 1) ×ˢ
          (Finset.Icc (-1 : Int) 1)) fun d =>
        if 0 ≤ (z : Int) + d.1 ∧ (z : Int) + d.1 < (g.depth : Int) ∧
           0 ≤ (y : Int) + d.2.1 ∧ (y : Int) + d.2.1 < (g.height : Int) ∧
           0 ≤ (x : Int) + d.2.2 ∧ (x : Int) + d.2.2 < (g.width : Int) ∧
           g.cells ((z : Int) + d.1).toNat ((y : Int) + d.2.1).toNat ((x : Int) + d.2.2).toNat
        then 1 else 0 := by
    rw [Finset.sum_product]
    refine Finset.sum_congr rfl fun dz _ => ?_
    rw [Finset.sum_product]
  rw [hprod]
  have hmem : ((0, 0, 0) : Int × Int × Int) ∈
      (Finset.Icc (-1 : Int) 1) ×ˢ (Finset.Icc (-1 : Int) 1) ×ˢ (Finset.Icc (-1 : Int) 1) := by
    decide
  rw [← Finset.sum_erase_add _ _ hmem]
  have hcenter :
      (if 0 ≤ (z : Int) + (0 : Int) ∧ (z : Int) + (0 : Int) < (g.depth : Int) ∧
          0 ≤ (y : Int) + (0 : Int) ∧ (y : Int) + (0 : Int) < (g.height : Int) ∧
          0 ≤ (x : Int) + (0 : Int) ∧ (x : Int) + (0 : Int) < (g.width : Int) ∧
          g.cells ((z : Int) + (0 : Int)).toNat ((y : Int) + (0 : Int)).toNat
            ((x : Int) + (0 : Int)).toNat
        then 1 else 0) = (if g.cells z y x then 1 else 0) := by
    have ez : ((z : Int) + (0 : Int)).toNat = z := by omega
    have ey : ((y : Int) + (0 : Int)).toNat = y := by omega
    have ex : ((x : Int) + (0 : Int)).toNat = x := by omega
    rw [ez, ey, ex]
    by_cases cc : g.cells z y x
    · rw [if_pos cc, if_pos ⟨by omega, by omega, by omega, by omega, by omega, by omega, cc⟩]
    · rw [if_neg cc, if_neg (by tauto)]
  rw [hcenter]
  rfl

lemma npIndex_nat (dim c : Nat) (hc : c < dim) : npIndex dim (c : Int) = some c := by
  unfold npIndex
  rw [if_pos (by omega : 0 ≤ (c : Int) ∧ (c : Int) < (dim : Int))]
  simp only [Option.some.injEq]
  omega

/-- Shared bridge: on in-range coordinates the source routine
`n_surrounding_cells` computes exactly the specification-side clipped,
self-excluding neighbor count. -/
lemma n_surrounding_eq_spec (g : Grid) (z y x : Nat)
    (hz : z < g.depth) (hy : y < g.height) (hx : x < g.width) :
    n_surrounding_cells g (z : Int) (y : Int) (x : Int) =
      some ((neighborCountSpec g z y x : Int)) := by
  have key : ∀ (a : Nat) (b : Bool),
      (((a + if b then 1 else 0 : Nat) : Int) - (if b then 1 else 0 : Int)) = (a : Int) := by
    intro a b
    cases b <;> simp
  have hss := sliceSum_eq_boxSum g z y x hz hy hx
  rw [boxSum_eq_spec_add_self g z y x hz hy hx] at hss
  unfold n_surrounding_cells
  rw [npIndex_nat g.depth z hz, npIndex_nat g.height y hy, npIndex_nat g.width x hx]
  dsimp only
  rw [hss, key (neighborCountSpec g z y x) (g.cells z y x)]

lemma spec_le_26 (g : Grid) (z y x : Nat) : neighborCountSpec g z y x ≤ 26 := by
  unfold neighborCountSpec
  have hcard : nbrOffsets.card = 26 := by decide
  calc Finset.sum nbrOffsets _ ≤ Finset.sum nbrOffsets fun _ => 1 :=
        Finset.sum_le_sum fun d _ => by split_ifs <;> omega
    _ = 26 := by rw [Finset.sum_const, hcard, smul_eq_mul, mul_one]

lemma seven_allowed (e1 e2 e3 : Int) (h1 : e1 = -1 ∨ e1 = 1) (h2 : e2 = -1 ∨ e2 = 1)
    (h3 : e3 = -1 ∨ e3 = 1) :
    (Finset.sum nbrOffsets fun d =>
      if d.1 ≠ e1 ∧ d.2.1 ≠ e2 ∧ d.2.2 ≠ e3 then (1 : Nat) else 0) = 7 := by
  rcases h1 with rfl | rfl <;> rcases h2 with rfl | rfl <;> rcases h3 with rfl | rfl <;> decide

lemma corner_axis_choice (dim c : Nat) (h : c = 0 ∨ c + 1 = dim) :
    ∃ e : Int, (e = -1 ∨ e = 1) ∧ ∀ d : Int, 0 ≤ (c : Int) + d → (c : Int) + d < (dim : Int) →
      d ≠ e := by
  rcases h with rfl | h
  · exact ⟨-1, Or.inl rfl, fun d h1 h2 => by omega⟩
  · exact ⟨1, Or.inr rfl, fun d h1 h2 => by omega⟩

/-- At a corner of the lattice at most 7 offsets stay in range, so the
specification-side count is at most 7 there. -/
lemma spec_corner_le_7 (g : Grid) (z y x : Nat)
    (hz : z = 0 ∨ z + 1 = g.depth) (hy : y = 0 ∨ y + 1 = g.height)
    (hx : x = 0 ∨ x + 1 = g.width) :
    neighborCountSpec g z y x ≤ 7 := by
  obtain ⟨e1, he1, hz1⟩ := corner_axis_choice g.depth z hz
  obtain ⟨e2, he2, hy1⟩ := corner_axis_choice g.height y hy
  obtain ⟨e3, he3, hx1⟩ := corner_axis_choice g.width x hx
  unfold neighborCountSpec
  refine le_trans (Finset.sum_le_sum fun d _ => ?_) (le_of_eq (seven_allowed e1 e2 e3 he1 he2 he3))
  split_ifs with hP hQ
  · exact le_refl 1
  · exact absurd ⟨hz1 d.1 hP.1 hP.2.1, hy1 d.2.1 hP.2.2.1 hP.2.2.2.1,
      hx1 d.2.2 hP.2.2.2.2.1 hP.2.2.2.2.2.1⟩ hQ
  · exact Nat.zero_le 1
  · exact le_refl 0

/-! ## Claims C1 and C2 -/

/-- Claim C1: for every lattice and every in-range coordinate, `step`
computes the next generation from the pre-step grid: a currently alive
cell is alive next iff its neighbor count (over the old grid) is exactly
9; a currently dead cell is alive next iff its neighbor count is exactly
4; every other cell is dead. -/
theorem C1_step_rule (g : Grid) (z y x : Nat)
    (hz : z < g.depth) (hy : y < g.height) (hx : x < g.width) :
    (g.step.cells z y x = true) ↔
      ((g.cells z y x = true ∧ neighborCountSpec g z y x = 9) ∨
       (g.cells z y x = false ∧ neighborCountSpec g z y x = 4)) := by
  unfold Grid.step
  dsimp only
  rw [if_pos ⟨hz, hy, hx⟩, n_surrounding_eq_spec g z y x hz hy hx]
  dsimp only
  by_cases cc : g.cells z y x
  · rw [if_pos cc]
    simp only [cc, beq_iff_eq, true_and, Bool.true_eq_false, false_and, or_false]
    omega
  · have cc' : g.cells z y x = false := by
      revert cc; cases g.cells z y x <;> simp
    rw [if_neg cc]
    simp only [cc', Bool.false_eq_true, false_and, true_and, false_or, beq_iff_eq]
    omega

/-- A 3×3×3 grid whose only alive cell is the center: the spec's own
worked example for the step rule. -/
def gCenter : Grid := ⟨3, 3, 3, fun z y x => z == 1 && y == 1 && x == 1⟩

/-- Witness for C1 at the center of `gCenter`. -/
theorem C1_step_rule_witness :
    (1 < gCenter.depth ∧ 1 < gCenter.height ∧ 1 < gCenter.width) ∧
    ((gCenter.step.cells 1 1 1 = true) ↔
      ((gCenter.cells 1 1 1 = true ∧ neighborCountSpec gCenter 1 1 1 = 9) ∨
       (gCenter.cells 1 1 1 = false ∧ neighborCountSpec gCenter 1 1 1 = 4))) :=
  ⟨⟨by decide, by decide, by decide⟩,
   C1_step_rule gCenter 1 1 1 (by decide) (by decide) (by decide)⟩

/-- Claim C2: on in-range coordinates `n_surrounding_cells` returns the
number of alive cells in the clipped 3×3×3 block excluding the cell
itself; the result is at most 26, and at a corner of the lattice it is at
most 7 (even if the whole grid is alive). -/
theorem C2_neighbor_count (g : Grid) (z y x : Nat)
    (hz : z < g.depth) (hy : y < g.height) (hx : x < g.width) :
    n_surrounding_cells g (z : Int) (y : Int) (x : Int) =
        some ((neighborCountSpec g z y x : Int)) ∧
      neighborCountSpec g z y x ≤ 26 ∧
      (((z = 0 ∨ z + 1 = g.depth) ∧ (y = 0 ∨ y + 1 = g.height) ∧ (x = 0 ∨ x + 1 = g.width)) →
        neighborCountSpec g z y x ≤ 7) :=
  ⟨n_surrounding_eq_spec g z y x hz hy hx, spec_le_26 g z y x,
   fun h => spec_corner_le_7 g z y x h.1 h.2.1 h.2.2⟩

/-- A fully alive 2×2×2 grid: every coordinate is a corner. -/
def gAll2 : Grid := ⟨2, 2, 2, fun _ _ _ => true⟩

/-- Witness for C2 at the corner (0,0,0) of the all-alive 2×2×2 grid. -/
theorem C2_neighbor_count_witness :
    (0 < gAll2.depth ∧ 0 < gAll2.height ∧ 0 < gAll2.width) ∧
    (n_surrounding_cells gAll2 ((0 : Nat) : Int) ((0 : Nat) : Int) ((0 : Nat) : Int) =
        some ((neighborCountSpec gAll2 0 0 0 : Int)) ∧
      neighborCountSpec gAll2 0 0 0 ≤ 26 ∧
      (((0 = 0 ∨ 0 + 1 = gAll2.depth) ∧ (0 = 0 ∨ 0 + 1 = gAll2.height) ∧
          (0 = 0 ∨ 0 + 1 = gAll2.width)) →
        neighborCountSpec gAll2 0 0 0 ≤ 7)) :=
  ⟨⟨by decide, by decide, by decide⟩,
   C2_neighbor_count gAll2 0 0 0 (by decide) (by decide) (by decide)⟩

/-! ## Claims C4, C5, C6 -/

lemma npIndex_eq_none_iff (dim : Nat) (i : Int) :
    npIndex dim i = none ↔ ¬(-(dim : Int) ≤ i ∧ i < (dim : Int)) := by
  unfold npIndex
  split_ifs with h1 h2 <;> simp <;> omega

lemma npIndex_eq_some_range (dim : Nat) (i : Int) (v : Nat) (h : npIndex dim i = some v) :
    -(dim : Int) ≤ i ∧ i < (dim : Int) := by
  unfold npIndex at h
  split_ifs at h with h1 h2
  · omega
  · omega

/-- Claim C4, amended: `n_surrounding_cells` fails exactly when some
coordinate falls outside `[-dim, dim)` on its axis; in particular a
coordinate with a negative component in `[-dim, -1]` is accepted silently
(NumPy wraparound), not rejected. -/
theorem C4_out_of_range_amended (g : Grid) (z y x : Int) :
    n_surrounding_cells g z y x = none ↔
      ¬((-(g.depth : Int) ≤ z ∧ z < (g.depth : Int)) ∧
        (-(g.height : Int) ≤ y ∧ y < (g.height : Int)) ∧
        (-(g.width : Int) ≤ x ∧ x < (g.width : Int))) := by
  unfold n_surrounding_cells
  cases hz : npIndex g.depth z <;> cases hy : npIndex g.height y <;>
    cases hx : npIndex g.width x <;> dsimp only
  all_goals first
  | exact iff_of_true rfl fun hcon => (npIndex_eq_none_iff g.depth z).1 hz hcon.1
  | exact iff_of_true rfl fun hcon => (npIndex_eq_none_iff g.height y).1 hy hcon.2.1
  | exact iff_of_true rfl fun hcon => (npIndex_eq_none_iff g.width x).1 hx hcon.2.2
  | exact iff_of_false (by simp) fun hcon => hcon ⟨npIndex_eq_some_range _ _ _ hz,
      npIndex_eq_some_range _ _ _ hy, npIndex_eq_some_range _ _ _ hx⟩

/-- A fully alive 2×2×2 grid used to exhibit the silent acceptance of a
negative out-of-range coordinate. -/
def gAllC4 : Grid := ⟨2, 2, 2, fun _ _ _ => true⟩

/-- Counterexample to claim C4 as stated: the coordinate `(-1, 0, 0)` is
outside `[0,2)×[0,2)×[0,2)`, yet `n_surrounding_cells` does not fail on
it — NumPy negative indexing silently wraps the center read, and the
clipped slice sum proceeds, returning 3. -/
theorem C4_out_of_range_counterexample :
    gAllC4.depth = 2 ∧ (-1 : Int) < 0 ∧
      n_surrounding_cells gAllC4 (-1) 0 0 = some 3 := by
  refine ⟨rfl, by decide, by decide⟩

/-- Claim C5, amended: construction never fails and never validates; any
grid, degenerate dimensions included, is stored unchanged with an empty
history.  No `InvalidDimensionError` exists in the source. -/
theorem C5_construction_amended (g : Grid) :
    (GameOfLife.init g).grid = g ∧ (GameOfLife.init g).prev_generations = [] :=
  ⟨rfl, rfl⟩

/-- A degenerate grid with a zero dimension. -/
def gDegenerate : Grid := ⟨0, 1, 1, fun _ _ _ => false⟩

/-- Counterexample to claim C5 as stated: on a grid with `depth = 0` the
source constructor succeeds (it stores the grid as is), where the
spec-side constructor `initSpec` demands an `InvalidDimensionError`. -/
theorem C5_construction_counterexample :
    gDegenerate.depth = 0 ∧
      (GameOfLife.init gDegenerate).grid = gDegenerate ∧
      (GameOfLife.init gDegenerate).prev_generations = [] ∧
      initSpec gDegenerate = Except.error "InvalidDimensionError" :=
  ⟨rfl, rfl, rfl, rfl⟩

lemma mem_nbrOffsets (d : Int × Int × Int) :
    d ∈ nbrOffsets ↔ d ≠ (0, 0, 0) ∧ -1 ≤ d.1 ∧ d.1 ≤ 1 ∧ -1 ≤ d.2.1 ∧ d.2.1 ≤ 1 ∧
      -1 ≤ d.2.2 ∧ d.2.2 ≤ 1 := by
  obtain ⟨d1, d2, d3⟩ := d
  unfold nbrOffsets
  simp only [Finset.mem_erase, Finset.mem_product, Finset.mem_Icc, Prod.mk.injEq, ne_eq]
  tauto

lemma spec_single_cell (g : Grid) (az ay ax z y x : Nat)
    (ha1 : az < g.depth) (ha2 : ay < g.height) (ha3 : ax < g.width)
    (honly : ∀ iz, iz < g.depth → ∀ iy, iy < g.height → ∀ ix, ix < g.width →
      (g.cells iz iy ix = true ↔ iz = az ∧ iy = ay ∧ ix = ax))
    (hz : z < g.depth) (hy : y < g.height) (hx : x < g.width) :
    neighborCountSpec g z y x =
      if ¬(z = az ∧ y = ay ∧ x = ax) ∧ ((z : Int) - az).natAbs ≤ 1 ∧
         ((y : Int) - ay).natAbs ≤ 1 ∧ ((x : Int) - ax).natAbs ≤ 1
      then 1 else 0 := by
  unfold neighborCountSpec
  have hcong : ∀ d ∈ nbrOffsets,
      (if 0 ≤ (z : Int) + d.1 ∧ (z : Int) + d.1 < (g.depth : Int) ∧
          0 ≤ (y : Int) + d.2.1 ∧ (y : Int) + d.2.1 < (g.height : Int) ∧
          0 ≤ (x : Int) + d.2.2 ∧ (x : Int) + d.2.2 < (g.width : Int) ∧
          g.cells ((z : Int) + d.1).toNat ((y : Int) + d.2.1).toNat ((x : Int) + d.2.2).toNat
        then (1 : Nat) else 0) =
      (if d = ((az : Int) - z, (ay : Int) - y, (ax : Int) - x) then 1 else 0) := by
    rintro ⟨d1, d2, d3⟩ _
    dsimp only
    have hiff : (0 ≤ (z : Int) + d1 ∧ (z : Int) + d1 < (g.depth : Int) ∧
          0 ≤ (y : Int) + d2 ∧ (y : Int) + d2 < (g.height : Int) ∧
          0 ≤ (x : Int) + d3 ∧ (x : Int) + d3 < (g.width : Int) ∧
          g.cells ((z : Int) + d1).toNat ((y : Int) + d2).toNat ((x : Int) + d3).toNat) ↔
        ((d1, d2, d3) : Int × Int × Int) = ((az : Int) - z, (ay : Int) - y, (ax : Int) - x) := by
      rw [Prod.mk.injEq, Prod.mk.injEq]
      constructor
      · rintro ⟨c1, c2, c3, c4, c5, c6, cc⟩
        have k1 : ((z : Int) + d1).toNat < g.depth := by omega
        have k2 : ((y : Int) + d2).toNat < g.height := by omega
        have k3 : ((x : Int) + d3).toNat < g.width := by omega
        have hcell := (honly _ k1 _ k2 _ k3).1 cc
        omega
      · rintro ⟨e1, e2, e3⟩
        subst e1; subst e2; subst e3
        have k1 : ((z : Int) + ((az : Int) - z)).toNat = az := by omega
        have k2 : ((y : Int) + ((ay : Int) - y)).toNat = ay := by omega
        have k3 : ((x : Int) + ((ax : Int) - x)).toNat = ax := by omega
        refine ⟨by omega, by omega, by omega, by omega, by omega, by omega, ?_⟩
        rw [k1, k2, k3]
        exact (honly az ha1 ay ha2 ax ha3).2 ⟨rfl, rfl, rfl⟩
    rw [if_congr hiff rfl rfl]
  rw [Finset.sum_congr rfl hcong, Finset.sum_ite_eq' nbrOffsets
    (((az : Int) - z, (ay : Int) - y, (ax : Int) - x) : Int × Int × Int) fun _ => (1 : Nat)]
  have hiff2 : (((az : Int) - z, (ay : Int) - y, (ax : Int) - x) : Int × Int × Int) ∈ nbrOffsets ↔
      (¬(z = az ∧ y = ay ∧ x = ax) ∧ ((z : Int) - az).natAbs ≤ 1 ∧
        ((y : Int) - ay).natAbs ≤ 1 ∧ ((x : Int) - ax).natAbs ≤ 1) := by
    rw [mem_nbrOffsets]
    simp only [ne_eq, Prod.mk.injEq]
    omega
  rw [if_congr hiff2 rfl rfl]

/-- Claim C6, amended: in a lattice whose only alive cell is `(az,ay,ax)`,
`n_surrounding_cells` returns 0 at the alive cell itself (it never counts
the queried cell), and at any other in-range coordinate it returns 1
exactly when that coordinate lies in the 3×3×3 block around the alive
cell, and 0 otherwise — not 0 everywhere as the claim states. -/
theorem C6_single_alive_amended (g : Grid) (az ay ax z y x : Nat)
    (ha : az < g.depth ∧ ay < g.height ∧ ax < g.width)
    (honly : ∀ iz, iz < g.depth → ∀ iy, iy < g.height → ∀ ix, ix < g.width →
      (g.cells iz iy ix = true ↔ iz = az ∧ iy = ay ∧ ix = ax))
    (hz : z < g.depth) (hy : y < g.height) (hx : x < g.width) :
    n_surrounding_cells g (z : Int) (y : Int) (x : Int) =
      some (if ¬(z = az ∧ y = ay ∧ x = ax) ∧ ((z : Int) - az).natAbs ≤ 1 ∧
              ((y : Int) - ay).natAbs ≤ 1 ∧ ((x : Int) - ax).natAbs ≤ 1
            then 1 else 0) := by
  rw [n_surrounding_eq_spec g z y x hz hy hx,
    spec_single_cell g az ay ax z y x ha.1 ha.2.1 ha.2.2 honly hz hy hx]
  split_ifs <;> rfl

/-- A 2×1×1 grid whose only alive cell is `(0,0,0)`. -/
def gSingle : Grid := ⟨2, 1, 1, fun z y x => z == 0 && y == 0 && x == 0⟩

/-- Counterexample to claim C6 as stated: `gSingle` has exactly one alive
cell, yet at the other coordinate `(1,0,0)` the neighbor count is 1, not
0 (the alive cell is adjacent to it). -/
theorem C6_single_alive_counterexample :
    gSingle.cells 0 0 0 = true ∧
      (∀ z, z < gSingle.depth → ∀ y, y < gSingle.height → ∀ x, x < gSingle.width →
        (gSingle.cells z y x = true ↔ z = 0 ∧ y = 0 ∧ x = 0)) ∧
      ¬n_surrounding_cells gSingle 1 0 0 = some 0 ∧
      n_surrounding_cells gSingle 1 0 0 = some 1 := by
  refine ⟨by decide, by decide, by decide, by decide⟩

/-- Witness for the amended C6 on `gSingle` at `(1,0,0)`. -/
theorem C6_single_alive_witness :
    (0 < gSingle.depth ∧ 0 < gSingle.height ∧ 0 < gSingle.width) ∧
    n_surrounding_cells gSingle ((1 : Nat) : Int) ((0 : Nat) : Int) ((0 : Nat) : Int) =
      some (if ¬((1 : Nat) = 0 ∧ (0 : Nat) = 0 ∧ (0 : Nat) = 0) ∧
              (((1 : Nat) : Int) - (0 : Nat)).natAbs ≤ 1 ∧
              (((0 : Nat) : Int) - (0 : Nat)).natAbs ≤ 1 ∧
              (((0 : Nat) : Int) - (0 : Nat)).natAbs ≤ 1
            then 1 else 0) :=
  ⟨⟨by decide, by decide, by decide⟩,
   C6_single_alive_amended gSingle 0 0 0 1 0 0 ⟨by decide, by decide, by decide⟩
     (by decide) (by decide) (by decide) (by decide)⟩

/-! ## Claims C7, C8, C9 -/

/-- After `n` driver steps from a fresh `GameOfLife`, the current grid is
the `n`-fold step of the seed and the history lists generations `1..n`
oldest-first. -/
lemma gol_iterate (g : Grid) : ∀ n : Nat,
    ((GameOfLife.step)^[n] (GameOfLife.init g)).grid = Grid.step^[n] g ∧
      ((GameOfLife.step)^[n] (GameOfLife.init g)).prev_generations =
        (List.range n).map fun i => Grid.step^[i + 1] g := by
  intro n
  induction n with
  | zero => exact ⟨rfl, rfl⟩
  | succ n ih =>
    obtain ⟨ih1, ih2⟩ := ih
    rw [Function.iterate_succ_apply', Function.iterate_succ_apply']
    constructor
    · show ((GameOfLife.step)^[n] (GameOfLife.init g)).grid.step = _
      rw [ih1]
    · show ((GameOfLife.step)^[n] (GameOfLife.init g)).prev_generations ++
        [((GameOfLife.step)^[n] (GameOfLife.init g)).grid.step] = _
      rw [ih1, ih2, List.range_succ, List.map_append, List.map_singleton,
        Function.iterate_succ_apply' Grid.step n g]

/-- Claim C7: after `N` calls to `step()` the history holds exactly `N`
snapshots, in call order oldest-first; each snapshot is a pure function of
the seed grid (the `i`-th recorded snapshot is generation `i+1`), so no
later step can retroactively change an earlier snapshot. -/
theorem C7_history_monotone (g : Grid) (N : Nat) :
    ((GameOfLife.step)^[N] (GameOfLife.init g)).prev_generations =
        ((List.range N).map fun i => Grid.step^[i + 1] g) ∧
      ((GameOfLife.step)^[N] (GameOfLife.init g)).prev_generations.length = N := by
  refine ⟨(gol_iterate g N).2, ?_⟩
  rw [(gol_iterate g N).2, List.length_map, List.length_range]

lemma equivOn_spec_eq (g1 g2 : Grid) (h : Grid.EquivOn g1 g2) (z y x : Nat) :
    neighborCountSpec g1 z y x = neighborCountSpec g2 z y x := by
  obtain ⟨hd, hh, hw, hc⟩ := h
  unfold neighborCountSpec
  rw [← hd, ← hh, ← hw]
  refine Finset.sum_congr rfl fun d _ => ?_
  by_cases c1 : 0 ≤ (z : Int) + d.1 ∧ (z : Int) + d.1 < (g1.depth : Int)
  · by_cases c2 : 0 ≤ (y : Int) + d.2.1 ∧ (y : Int) + d.2.1 < (g1.height : Int)
    · by_cases c3 : 0 ≤ (x : Int) + d.2.2 ∧ (x : Int) + d.2.2 < (g1.width : Int)
      · rw [hc ((z : Int) + d.1).toNat (by omega) ((y : Int) + d.2.1).toNat (by omega)
          ((x : Int) + d.2.2).toNat (by omega)]
      · rw [if_neg (by tauto), if_neg (by tauto)]
    · rw [if_neg (by tauto), if_neg (by tauto)]
  · rw [if_neg (by tauto), if_neg (by tauto)]

lemma equivOn_step (g1 g2 : Grid) (h : Grid.EquivOn g1 g2) :
    Grid.EquivOn g1.step g2.step := by
  have hd : g1.depth = g2.depth := h.1
  have hh : g1.height = g2.height := h.2.1
  have hw : g1.width = g2.width := h.2.2.1
  refine ⟨hd, hh, hw, ?_⟩
  intro z hz y hy x hx
  have hz1 : z < g1.depth := hz
  have hy1 : y < g1.height := hy
  have hx1 : x < g1.width := hx
  show (if z < g1.depth ∧ y < g1.height ∧ x < g1.width then _ else false) =
    (if z < g2.depth ∧ y < g2.height ∧ x < g2.width then _ else false)
  rw [if_pos ⟨hz1, hy1, hx1⟩, if_pos ⟨hd ▸ hz1, hh ▸ hy1, hw ▸ hx1⟩,
    n_surrounding_eq_spec g1 z y x hz1 hy1 hx1,
    n_surrounding_eq_spec g2 z y x (hd ▸ hz1) (hh ▸ hy1) (hw ▸ hx1)]
  dsimp only
  rw [equivOn_spec_eq g1 g2 h z y x, h.2.2.2 z hz1 y hy1 x hx1]

lemma equivOn_iterate (g1 g2 : Grid) (h : Grid.EquivOn g1 g2) (n : Nat) :
    Grid.EquivOn (Grid.step^[n] g1) (Grid.step^[n] g2) := by
  induction n with
  | zero => exact h
  | succ n ih =>
    rw [Function.iterate_succ_apply', Function.iterate_succ_apply']
    exact equivOn_step _ _ ih

/-- Claim C8: the simulation is deterministic — two `GameOfLife` objects
seeded with identical grids (same shape, same booleans at every in-range
coordinate) have identical grid states after each of the `N` steps. -/
theorem C8_determinism (g1 g2 : Grid) (h : Grid.EquivOn g1 g2) (N : Nat) :
    Grid.EquivOn ((GameOfLife.step)^[N] (GameOfLife.init g1)).grid
      ((GameOfLife.step)^[N] (GameOfLife.init g2)).grid := by
  rw [(gol_iterate g1 N).1, (gol_iterate g2 N).1]
  exact equivOn_iterate g1 g2 h N

/-- A 1×1×2 grid with one alive cell. -/
def gW1 : Grid := ⟨1, 1, 2, fun _ _ x => x == 0⟩

/-- The same array as `gW1` up to representation junk outside the range. -/
def gW2 : Grid := ⟨1, 1, 2, fun z _ x => x == 0 || z == 5⟩

/-- Witness for C8 on two identical 1×1×2 seeds after one step. -/
theorem C8_determinism_witness :
    Grid.EquivOn gW1 gW2 ∧
      Grid.EquivOn ((GameOfLife.step)^[1] (GameOfLife.init gW1)).grid
        ((GameOfLife.step)^[1] (GameOfLife.init gW2)).grid :=
  ⟨by decide, C8_determinism gW1 gW2 (by decide) 1⟩

/-- Claim C9: the lattice's dimensions are fixed at construction — after
any number of `step()` calls the grid's shape is unchanged. -/
theorem C9_dims_invariant (gol : GameOfLife) (n : Nat) :
    ((GameOfLife.step)^[n] gol).grid.depth = gol.grid.depth ∧
      ((GameOfLife.step)^[n] gol).grid.height = gol.grid.height ∧
      ((GameOfLife.step)^[n] gol).grid.width = gol.grid.width := by
  induction n with
  | zero => exact ⟨rfl, rfl, rfl⟩
  | succ n ih =>
    rw [Function.iterate_succ_apply']
    exact ih

/-! ## The color-map derivation of `simulate` (claims C3 and C10) -/

/-- The per-cell color update of `GameOfLife.simulate`, with exact
rationals standing in for Python floats (`0.1` is exact here): if the
cell in the snapshot is dead (`== 0`) the color is set to `(1, 1, 0)`;
otherwise it becomes `(1, max(previous_green - 0.1, 0), 0)`. -/
def pointColorStep (c : ℚ × ℚ × ℚ) (alive : Bool) : ℚ × ℚ × ℚ :=
  if alive = false then (1, 1, 0) else (1, max (c.2.1 - 1 / 10) 0, 0)

/-- The `color_map` array of `simulate`: `np.zeros([10, 10, 10, 3])`.
`dims` records the allocated shape (always `(10, 10, 10)` at allocation);
`vals` holds one color triple per coordinate. -/
structure ColorMap where
  dims : Nat × Nat × Nat
  vals : Nat × Nat × Nat → ℚ × ℚ × ℚ

/-- One iteration of the inner loop of `simulate` at coordinate `c`:
reading/writing `color_map[z, y, x]` requires `z, y, x < 10` (the
allocated extent), otherwise NumPy raises `IndexError` (`none`); the cell
update is `pointColorStep` applied at `c` only. -/
def colorVisitCell (gen : Grid) (cm : ColorMap) (c : Nat × Nat × Nat) : Option ColorMap :=
  if c.1 < 10 ∧ c.2.1 < 10 ∧ c.2.2 < 10 then
    some ⟨cm.dims, fun q =>
      if q = c then pointColorStep (cm.vals c) (gen.cells c.1 c.2.1 c.2.2) else cm.vals q⟩
  else none

/-- `np.ndindex(shape)`: all coordinates of the grid in row-major order. -/
def ndindex (d h w : Nat) : List (Nat × Nat × Nat) :=
  (List.range d).flatMap fun z =>
    (List.range h).flatMap fun y => (List.range w).map fun x => (z, y, x)

/-- One iteration of the outer loop of `simulate`: fold the cell update
over every coordinate of `np.ndindex(self.grid.shape)` for one recorded
generation (the `display` call is GUI-side and out of scope). -/
def colorGenFold (shape : Nat × Nat × Nat) (gen : Grid) (cm : ColorMap) : Option ColorMap :=
  List.foldlM (colorVisitCell gen) cm (ndindex shape.1 shape.2.1 shape.2.2)

/-- `GameOfLife.simulate(self)`, restricted to the color-map accumulation:
starting from `np.zeros([10, 10, 10, 3])`, fold the per-generation update
over `self.prev_generations` in recorded order. -/
def GameOfLife.simulate (gol : GameOfLife) : Option ColorMap :=
  List.foldlM
    (fun cm gen => colorGenFold (gol.grid.depth, gol.grid.height, gol.grid.width) gen cm)
    ⟨(10, 10, 10), fun _ => (0, 0, 0)⟩ gol.prev_generations

/-- The same `GameOfLife` object observed after only the first `n` steps:
the history truncated to its first `n` snapshots.  Used to speak about
the intermediate color-map states of the snapshot fold. -/
def GameOfLife.takeHistory (gol : GameOfLife) (n : Nat) : GameOfLife :=
  ⟨gol.grid, gol.prev_generations.take n⟩

/-- The alive/dead history of one coordinate across the recorded
snapshots, oldest first. -/
def aliveTrace (gol : GameOfLife) (p : Nat × Nat × Nat) : List Bool :=
  gol.prev_generations.map fun gen => gen.cells p.1 p.2.1 p.2.2

/-- The final color of a coordinate as a function of its alive/dead
history: fold of the per-cell update from the zero initialization. -/
def colorTrace (trace : List Bool) : ℚ × ℚ × ℚ := trace.foldl pointColorStep (0, 0, 0)

/-- The green channel of the derived color at coordinate `p` (the channel
the fade rule varies), or `none` when `simulate` fails. -/
def simGreen (gol : GameOfLife) (p : Nat × Nat × Nat) : Option ℚ :=
  (GameOfLife.simulate gol).map fun cm => (cm.vals p).2.1

lemma mem_ndindex (d h w : Nat) (p : Nat × Nat × Nat) :
    p ∈ ndindex d h w ↔ p.1 < d ∧ p.2.1 < h ∧ p.2.2 < w := by
  obtain ⟨z, y, x⟩ := p
  unfold ndindex
  simp only [List.mem_flatMap, List.mem_map, List.mem_range, Prod.mk.injEq]
  constructor
  · rintro ⟨a, ha, b, hb, c, hc, rfl, rfl, rfl⟩
    exact ⟨ha, hb, hc⟩
  · rintro ⟨hz, hy, hx⟩
    exact ⟨z, hz, y, hy, x, hx, rfl, rfl, rfl⟩

lemma nodup_ndindex (d h w : Nat) : (ndindex d h w).Nodup := by
  unfold ndindex
  rw [List.nodup_flatMap]
  refine ⟨fun z _ => ?_, ?_⟩
  · rw [List.nodup_flatMap]
    refine ⟨fun y _ => ?_, ?_⟩
    · exact (List.nodup_range w).map fun x1 x2 e => by
        simpa only [Prod.mk.injEq, true_and] using e
    · refine List.Pairwise.imp ?_ (List.nodup_range h)
      intro y1 y2 hne t ht1 ht2
      simp only [List.mem_map] at ht1 ht2
      obtain ⟨x1, _, rfl⟩ := ht1
      obtain ⟨x2, _, he⟩ := ht2
      exact hne (by simpa using congrArg (fun q => q.2.1) he.symm)
  · refine List.Pairwise.imp ?_ (List.nodup_range d)
    intro z1 z2 hne t ht1 ht2
    simp only [List.mem_flatMap, List.mem_map] at ht1 ht2
    obtain ⟨y1, _, x1, _, rfl⟩ := ht1
    obtain ⟨y2, _, x2, _, he⟩ := ht2
    exact hne (by simpa using congrArg (fun q => q.1) he.symm)

/-- Folding the cell update over a duplicate-free list of in-bounds
coordinates succeeds and updates each visited coordinate exactly once,
from its own previous value. -/
lemma foldVisit_some (gen : Grid) :
    ∀ (coords : List (Nat × Nat × Nat)) (cm : ColorMap),
      (∀ c ∈ coords, c.1 < 10 ∧ c.2.1 < 10 ∧ c.2.2 < 10) → coords.Nodup →
      ∃ cm', List.foldlM (colorVisitCell gen) cm coords = some cm' ∧
        cm'.dims = cm.dims ∧
        ∀ p, cm'.vals p =
          if p ∈ coords then pointColorStep (cm.vals p) (gen.cells p.1 p.2.1 p.2.2)
          else cm.vals p := by
  intro coords
  induction coords with
  | nil =>
    intro cm _ _
    exact ⟨cm, rfl, rfl, fun p => by simp⟩
  | cons c rest ih =>
    intro cm hb hnd
    have hc := hb c (List.mem_cons_self c rest)
    have hvisit : colorVisitCell gen cm c = some ⟨cm.dims, fun q =>
        if q = c then pointColorStep (cm.vals c) (gen.cells c.1 c.2.1 c.2.2)
        else cm.vals q⟩ := by
      unfold colorVisitCell
      rw [if_pos hc]
    obtain ⟨cm', hfold, hdims, hvals⟩ :=
      ih ⟨cm.dims, fun q =>
          if q = c then pointColorStep (cm.vals c) (gen.cells c.1 c.2.1 c.2.2)
          else cm.vals q⟩
        (fun d hd => hb d (List.mem_cons_of_mem c hd)) hnd.of_cons
    dsimp only at hdims hvals
    refine ⟨cm', ?_, hdims, ?_⟩
    · rw [List.foldlM_cons, hvisit]
      exact hfold
    · intro p
      rw [hvals p]
      by_cases hp : p ∈ rest
      · have hpc : p ≠ c := fun e => (List.nodup_cons.1 hnd).1 (e ▸ hp)
        rw [if_pos hp, if_pos (List.mem_cons_of_mem c hp), if_neg hpc]
      · rw [if_neg hp]
        by_cases hpc : p = c
        · subst hpc
          rw [if_pos rfl, if_pos (List.mem_cons_self p rest)]
        · rw [if_neg hpc, if_neg (by
            intro hmem
            rcases List.mem_cons.1 hmem with e | e
            · exact hpc e
            · exact hp e)]

/-- If some iterated coordinate is out of the allocated `10 × 10 × 10`
extent, the fold over the coordinates fails. -/
lemma foldVisit_none (gen : Grid) :
    ∀ (coords : List (Nat × Nat × Nat)) (cm : ColorMap) (c : Nat × Nat × Nat),
      c ∈ coords → ¬(c.1 < 10 ∧ c.2.1 < 10 ∧ c.2.2 < 10) →
      List.foldlM (colorVisitCell gen) cm coords = none := by
  intro coords
  induction coords with
  | nil =>
    intro cm c hc _
    exact absurd hc (List.not_mem_nil c)
  | cons a rest ih =>
    intro cm c hc hbad
    rw [List.foldlM_cons]
    by_cases ha : a.1 < 10 ∧ a.2.1 < 10 ∧ a.2.2 < 10
    · have hvisit : colorVisitCell gen cm a = some ⟨cm.dims, fun q =>
          if q = a then pointColorStep (cm.vals a) (gen.cells a.1 a.2.1 a.2.2)
          else cm.vals q⟩ := by
        unfold colorVisitCell
        rw [if_pos ha]
      rw [hvisit]
      have hcr : c ∈ rest := by
        rcases List.mem_cons.1 hc with rfl | h
        · exact absurd ha hbad
        · exact h
      exact ih _ c hcr hbad
    · have hvisit : colorVisitCell gen cm a = none := by
        unfold colorVisitCell
        rw [if_neg ha]
      rw [hvisit]
      rfl

/-- With all three dimensions at most 10, the snapshot fold of `simulate`
succeeds and each in-range coordinate's final color is the fold of its
own alive/dead history. -/
lemma simFold_some (d h w : Nat) (hd : d ≤ 10) (hh : h ≤ 10) (hw : w ≤ 10) :
    ∀ (gens : List Grid) (cm : ColorMap),
      ∃ cm', List.foldlM (fun cm gen => colorGenFold (d, h, w) gen cm) cm gens = some cm' ∧
        cm'.dims = cm.dims ∧
        ∀ p : Nat × Nat × Nat, p.1 < d → p.2.1 < h → p.2.2 < w →
          cm'.vals p =
            (gens.map fun gen => gen.cells p.1 p.2.1 p.2.2).foldl pointColorStep (cm.vals p) := by
  intro gens
  induction gens with
  | nil =>
    intro cm
    exact ⟨cm, rfl, rfl, fun p _ _ _ => rfl⟩
  | cons gen rest ih =>
    intro cm
    obtain ⟨cm1, hfold1, hdims1, hvals1⟩ := foldVisit_some gen (ndindex d h w) cm
      (fun c hc => by
        have := (mem_ndindex d h w c).1 hc
        exact ⟨by omega, by omega, by omega⟩)
      (nodup_ndindex d h w)
    obtain ⟨cm', hfold, hdims, hvals⟩ := ih cm1
    refine ⟨cm', ?_, ?_, ?_⟩
    · rw [List.foldlM_cons]
      show (colorGenFold (d, h, w) gen cm) >>= _ = _
      unfold colorGenFold
      dsimp only
      rw [hfold1]
      exact hfold
    · rw [hdims, hdims1]
    · intro p hp1 hp2 hp3
      rw [hvals p hp1 hp2 hp3, List.map_cons, List.foldl_cons]
      congr 1
      rw [hvals1 p, if_pos ((mem_ndindex d h w p).2 ⟨hp1, hp2, hp3⟩)]

/-- With positive dimensions, one of them exceeding 10, and at least one
recorded snapshot, the snapshot fold of `simulate` fails: the very first
generation's coordinate loop hits an index outside the allocated array. -/
lemma simFold_none (d h w : Nat) (h1 : 1 ≤ d) (h2 : 1 ≤ h) (h3 : 1 ≤ w)
    (hbig : 10 < d ∨ 10 < h ∨ 10 < w) (gens : List Grid) (cm : ColorMap)
    (hne : gens ≠ []) :
    List.foldlM (fun cm gen => colorGenFold (d, h, w) gen cm) cm gens = none := by
  cases gens with
  | nil => exact absurd rfl hne
  | cons gen rest =>
    have hbad : ∃ c ∈ ndindex d h w, ¬(c.1 < 10 ∧ c.2.1 < 10 ∧ c.2.2 < 10) := by
      rcases hbig with hb | hb | hb
      · exact ⟨(10, 0, 0), (mem_ndindex d h w _).2 (by dsimp only; omega), by dsimp only; omega⟩
      · exact ⟨(0, 10, 0), (mem_ndindex d h w _).2 (by dsimp only; omega), by dsimp only; omega⟩
      · exact ⟨(0, 0, 10), (mem_ndindex d h w _).2 (by dsimp only; omega), by dsimp only; omega⟩
    obtain ⟨c, hc, hcbad⟩ := hbad
    rw [List.foldlM_cons]
    show (colorGenFold (d, h, w) gen cm) >>= _ = _
    unfold colorGenFold
    dsimp only
    rw [foldVisit_none gen (ndindex d h w) cm c hc hcbad]
    rfl

lemma foldVisit_dims (gen : Grid) :
    ∀ (coords : List (Nat × Nat × Nat)) (cm cm' : ColorMap),
      List.foldlM (colorVisitCell gen) cm coords = some cm' → cm'.dims = cm.dims := by
  intro coords
  induction coords with
  | nil =>
    intro cm cm' hfold
    cases hfold
    rfl
  | cons a rest ih =>
    intro cm cm' hfold
    rw [List.foldlM_cons] at hfold
    cases hv : colorVisitCell gen cm a with
    | none => rw [hv] at hfold; cases hfold
    | some cm1 =>
      rw [hv] at hfold
      have h1 : cm1.dims = cm.dims := by
        unfold colorVisitCell at hv
        split_ifs at hv
        injection hv with hv
        rw [← hv]
      rw [ih cm1 cm' hfold, h1]

lemma simFold_dims (d h w : Nat) :
    ∀ (gens : List Grid) (cm cm' : ColorMap),
      List.foldlM (fun cm gen => colorGenFold (d, h, w) gen cm) cm gens = some cm' →
      cm'.dims = cm.dims := by
  intro gens
  induction gens with
  | nil =>
    intro cm cm' hfold
    cases hfold
    rfl
  | cons gen rest ih =>
    intro cm cm' hfold
    rw [List.foldlM_cons] at hfold
    cases hv : colorGenFold (d, h, w) gen cm with
    | none => rw [hv] at hfold; cases hfold
    | some cm1 =>
      rw [hv] at hfold
      have h1 : cm1.dims = cm.dims := foldVisit_dims gen _ cm cm1 hv
      rw [ih cm1 cm' hfold, h1]

/-- With all dimensions at most 10, `simulate` succeeds; its buffer keeps
the fixed allocated shape `(10,10,10)` and each in-range coordinate holds
the fold of its own alive/dead history. -/
lemma simulate_formula (gol : GameOfLife) (hd : gol.grid.depth ≤ 10)
    (hh : gol.grid.height ≤ 10) (hw : gol.grid.width ≤ 10) :
    ∃ cm, GameOfLife.simulate gol = some cm ∧ cm.dims = (10, 10, 10) ∧
      ∀ p : Nat × Nat × Nat, p.1 < gol.grid.depth → p.2.1 < gol.grid.height →
        p.2.2 < gol.grid.width → cm.vals p = colorTrace (aliveTrace gol p) := by
  obtain ⟨cm, h1, h2, h3⟩ := simFold_some gol.grid.depth gol.grid.height gol.grid.width
    hd hh hw gol.prev_generations ⟨(10, 10, 10), fun _ => (0, 0, 0)⟩
  refine ⟨cm, h1, h2, fun p hp1 hp2 hp3 => ?_⟩
  rw [h3 p hp1 hp2 hp3]
  rfl

lemma simGreen_formula (gol : GameOfLife) (hd : gol.grid.depth ≤ 10)
    (hh : gol.grid.height ≤ 10) (hw : gol.grid.width ≤ 10) (p : Nat × Nat × Nat)
    (hp1 : p.1 < gol.grid.depth) (hp2 : p.2.1 < gol.grid.height)
    (hp3 : p.2.2 < gol.grid.width) :
    simGreen gol p = some ((colorTrace (aliveTrace gol p)).2.1) := by
  obtain ⟨cm, h1, _, h3⟩ := simulate_formula gol hd hh hw
  unfold simGreen
  rw [h1, Option.map_some', h3 p hp1 hp2 hp3]

/-- Evaluation of the fade: starting from the just-dead color `(1,1,0)`,
`j ≤ 10` consecutive alive snapshots leave green at `(10 - j)/10`. -/
lemma pointColorStep_true_green (c : ℚ × ℚ × ℚ) :
    (pointColorStep c true).2.1 = max (c.2.1 - 1 / 10) 0 := by
  unfold pointColorStep
  norm_num

lemma green_replicate (j : Nat) (hj : j ≤ 10) :
    ((List.replicate j true).foldl pointColorStep ((1 : ℚ), (1 : ℚ), (0 : ℚ))).2.1 =
      (10 - (j : ℚ)) / 10 := by
  induction j with
  | zero => norm_num
  | succ n ih =>
    have hn : n ≤ 10 := by omega
    have hn9 : (n : ℚ) ≤ 9 := by exact_mod_cast (by omega : n ≤ 9)
    rw [List.replicate_succ', List.foldl_append, List.foldl_cons, List.foldl_nil,
      pointColorStep_true_green, ih hn,
      max_eq_left (by rw [sub_nonneg]; rw [div_le_div_iff₀] <;> linarith)]
    push_cast
    ring

/-- Claim C3, amended: the roles of alive and dead are swapped relative
to the claim.  For each snapshot and coordinate, a DEAD cell's color is
set to the constant `(1, 1, 0)`; an ALIVE cell's green channel decays by
`0.1` per generation with floor 0 (red stays 1, blue 0).  Consequently a
cell dead in snapshot `k` and alive in snapshots `k+1 .. k+10` fades
strictly monotonically from green `1` down to the floor `0`: after
snapshot `k+j` its green channel is exactly `(10 - j)/10`. -/
theorem C3_color_decay_amended (gol : GameOfLife) (p : Nat × Nat × Nat) (pre : List Bool)
    (hd : gol.grid.depth ≤ 10) (hh : gol.grid.height ≤ 10) (hw : gol.grid.width ≤ 10)
    (hp : p.1 < gol.grid.depth ∧ p.2.1 < gol.grid.height ∧ p.2.2 < gol.grid.width)
    (htr : aliveTrace gol p = pre ++ false :: List.replicate 10 true) :
    ∀ j, j ≤ 10 →
      simGreen (gol.takeHistory (pre.length + 1 + j)) p = some ((10 - (j : ℚ)) / 10) := by
  intro j hj
  have hTake : aliveTrace (gol.takeHistory (pre.length + 1 + j)) p =
      pre ++ false :: List.replicate j true := by
    show (gol.prev_generations.take (pre.length + 1 + j)).map
      (fun gen => gen.cells p.1 p.2.1 p.2.2) = _
    rw [List.map_take]
    show (aliveTrace gol p).take _ = _
    rw [htr, show pre.length + 1 + j = pre.length + (1 + j) from by omega, List.take_append,
      show 1 + j = j + 1 from by omega, List.take_succ_cons, List.take_replicate,
      show j ⊓ 10 = j from by omega]
  have hgreen := simGreen_formula (gol.takeHistory (pre.length + 1 + j)) hd hh hw p
    hp.1 hp.2.1 hp.2.2
  rw [hgreen, hTake]
  unfold colorTrace
  rw [List.foldl_append, List.foldl_cons,
    show pointColorStep (List.foldl pointColorStep ((0 : ℚ), (0 : ℚ), (0 : ℚ)) pre) false =
      ((1 : ℚ), (1 : ℚ), (0 : ℚ)) from rfl,
    green_replicate j hj]

/-- A 1×1×1 grid whose cell is alive. -/
def gAliveTiny : Grid := ⟨1, 1, 1, fun _ _ _ => true⟩

/-- A 1×1×1 grid whose cell is dead. -/
def gDeadTiny : Grid := ⟨1, 1, 1, fun _ _ _ => false⟩

/-- A recorded run on a 1×1×1 lattice: the cell is alive in snapshot 0
and dead in snapshots 1..10 — exactly the scenario of the claim. -/
def golC3 : GameOfLife := ⟨gDeadTiny, gAliveTiny :: List.replicate 10 gDeadTiny⟩

/-- Counterexample to claim C3 as stated: in `golC3` the cell is alive in
snapshot 0 and dead in snapshots 1..10, yet its color intensity after
snapshot 1 and after snapshot 2 is the same maximal green 1 (the code
sets DEAD cells to `(1,1,0)`), so the intensity does not fade strictly
monotonically after death. -/
theorem C3_color_decay_counterexample :
    aliveTrace golC3 (0, 0, 0) = true :: List.replicate 10 false ∧
      simGreen (golC3.takeHistory 2) (0, 0, 0) = some 1 ∧
      simGreen (golC3.takeHistory 3) (0, 0, 0) = some 1 := by
  have h2 := simGreen_formula (golC3.takeHistory 2) (by decide) (by decide) (by decide)
    (0, 0, 0) (by decide) (by decide) (by decide)
  have h3 := simGreen_formula (golC3.takeHistory 3) (by decide) (by decide) (by decide)
    (0, 0, 0) (by decide) (by decide) (by decide)
  have e2 : aliveTrace (golC3.takeHistory 2) (0, 0, 0) = [true, false] := by decide
  have e3 : aliveTrace (golC3.takeHistory 3) (0, 0, 0) = [true, false, false] := by decide
  refine ⟨by decide, ?_, ?_⟩
  · rw [h2, e2]
    unfold colorTrace
    rw [List.foldl_cons, List.foldl_cons, List.foldl_nil,
      show ∀ c : ℚ × ℚ × ℚ, pointColorStep c false = ((1 : ℚ), (1 : ℚ), (0 : ℚ)) from
        fun c => rfl]
  · rw [h3, e3]
    unfold colorTrace
    rw [List.foldl_cons, List.foldl_cons, List.foldl_cons, List.foldl_nil,
      show ∀ c : ℚ × ℚ × ℚ, pointColorStep c false = ((1 : ℚ), (1 : ℚ), (0 : ℚ)) from
        fun c => rfl]

/-- A recorded run on a 1×1×1 lattice: dead in snapshot 0, then alive in
snapshots 1..10 — the scenario of the amended C3. -/
def golC3W : GameOfLife := ⟨gDeadTiny, gDeadTiny :: List.replicate 10 gAliveTiny⟩

/-- Witness for the amended C3 on `golC3W` at `j = 10`: ten alive
snapshots after a death fade green to exactly the floor 0. -/
theorem C3_color_decay_witness :
    aliveTrace golC3W (0, 0, 0) = [] ++ false :: List.replicate 10 true ∧
      simGreen (golC3W.takeHistory (List.length ([] : List Bool) + 1 + 10)) (0, 0, 0) =
        some ((10 - ((10 : Nat) : ℚ)) / 10) :=
  ⟨by decide,
   C3_color_decay_amended golC3W (0, 0, 0) [] (by decide) (by decide) (by decide)
     ⟨by decide, by decide, by decide⟩ (by decide) 10 (by omega)⟩

/-- Claim C10: `simulate` allocates a fixed `10×10×10×3` intensity array
regardless of the lattice's shape.  (a) On an exactly 10×10×10 lattice
the derivation succeeds and covers every coordinate; (b) on a lattice
(positive dimensions, as the spec's data model requires) with any
dimension above 10 and at least one snapshot, the coordinate loop indexes
outside the allocated array and fails; (c) with any dimension below 10,
whatever is returned keeps the allocated `(10,10,10)` shape, which does
not match the lattice's shape. -/
theorem C10_fixed_buffer (gol : GameOfLife) :
    (gol.grid.depth = 10 → gol.grid.height = 10 → gol.grid.width = 10 →
      ∃ cm, GameOfLife.simulate gol = some cm ∧
        ∀ p : Nat × Nat × Nat, p.1 < 10 → p.2.1 < 10 → p.2.2 < 10 →
          cm.vals p = colorTrace (aliveTrace gol p)) ∧
    (1 ≤ gol.grid.depth → 1 ≤ gol.grid.height → 1 ≤ gol.grid.width →
      gol.prev_generations ≠ [] →
      (10 < gol.grid.depth ∨ 10 < gol.grid.height ∨ 10 < gol.grid.width) →
      GameOfLife.simulate gol = none) ∧
    ((gol.grid.depth < 10 ∨ gol.grid.height < 10 ∨ gol.grid.width < 10) →
      ∀ cm, GameOfLife.simulate gol = some cm →
        cm.dims ≠ (gol.grid.depth, gol.grid.height, gol.grid.width)) := by
  refine ⟨?_, ?_, ?_⟩
  · intro h1 h2 h3
    obtain ⟨cm, hs, _, hv⟩ := simulate_formula gol (by omega) (by omega) (by omega)
    exact ⟨cm, hs, fun p hp1 hp2 hp3 => hv p (by omega) (by omega) (by omega)⟩
  · intro h1 h2 h3 hne hbig
    exact simFold_none gol.grid.depth gol.grid.height gol.grid.width h1 h2 h3 hbig
      gol.prev_generations _ hne
  · intro hsmall cm hs
    have hdims : cm.dims = (10, 10, 10) :=
      simFold_dims gol.grid.depth gol.grid.height gol.grid.width gol.prev_generations _ cm hs
    rw [hdims]
    intro he
    rw [Prod.mk.injEq, Prod.mk.injEq] at he
    omega

/-- A dead 10×10×10 grid. -/
def gTen : Grid := ⟨10, 10, 10, fun _ _ _ => false⟩

/-- A run whose lattice shape matches the allocated color buffer. -/
def golC10a : GameOfLife := ⟨gTen, [gTen]⟩

/-- A dead 11×1×1 grid: depth exceeds the allocated buffer. -/
def gEleven : Grid := ⟨11, 1, 1, fun _ _ _ => false⟩

/-- A run with one snapshot on the oversized lattice. -/
def golC10b : GameOfLife := ⟨gEleven, [gEleven]⟩

/-- A dead 1×1×1 grid: all dimensions below the allocated buffer. -/
def gOneC10 : Grid := ⟨1, 1, 1, fun _ _ _ => false⟩

/-- A run on the undersized lattice. -/
def golC10c : GameOfLife := ⟨gOneC10, []⟩

/-- Witness for C10: the derivation succeeds on a 10×10×10 lattice, fails
on an 11×1×1 lattice with a snapshot, and on a 1×1×1 lattice any returned
buffer keeps the mismatched allocated shape. -/
theorem C10_fixed_buffer_witness :
    (∃ cm, GameOfLife.simulate golC10a = some cm) ∧
      GameOfLife.simulate golC10b = none ∧
      (∀ cm, GameOfLife.simulate golC10c = some cm →
        cm.dims ≠ (golC10c.grid.depth, golC10c.grid.height, golC10c.grid.width)) := by
  refine ⟨?_, ?_, ?_⟩
  · obtain ⟨cm, hs, _⟩ := (C10_fixed_buffer golC10a).1 rfl rfl rfl
    exact ⟨cm, hs⟩
  · exact (C10_fixed_buffer golC10b).2.1 (by decide) (by decide) (by decide)
      (List.cons_ne_nil _ _) (by decide)
  · exact (C10_fixed_buffer golC10c).2.2 (by decide)
